import Mathlib

/-!
Verification development for the Quax repository.

Part 1 embeds `src/PsiJax/psijax/psijax/external_integrals/oei.py`:
the JAX primitives for overlap/kinetic/potential integral evaluation,
their disk-backed derivative lookup, their forward-mode (JVP) rules and
their batching rules.

Part 2 embeds `src/quax/methods/hartree_fock.py` together with
`src/PsiJax/psijax/psijax/methods/energy_utils.py`: the restricted
Hartree-Fock SCF fixed-point iteration.

Machine floats are idealised as exact rationals; external numerical
library routines (libint, h5py data, `jnp.linalg.eigh`,
`jnp.linalg.cholesky`, `jnp.linalg.inv`, the float `** 0.5`) are modelled
as explicit parameters, since they are collaborators outside this
repository.
-/

/-- A geometry: the flattened list of nuclear Cartesian coordinates. -/
def Geom : Type := List ℚ

/-- A derivative vector at the JAX tracing level: an array of numbers,
one per Cartesian coordinate (cast to integers inside the impl rules). -/
def DerivVec : Type := List ℚ

/-- A persisted 3D dataset, shaped (n_bf, n_bf, n_derivative_vectors):
rows of columns of fibers along the third axis. -/
def Tensor3 : Type := List (List (List ℚ))

/-- An HDF5 file modelled as an association list from dataset names to
3D datasets (the layout of `oei_derivs.h5`). -/
def H5File : Type := List (String × Tensor3)

/-- Python-level errors that the integral code can surface.
`keyError` is what `h5py.File.__getitem__` raises for a missing dataset
name; `indexError` models an out-of-range third-axis index;
`valueError` models a failed reshape.  `missingDerivativeDataError` is
the typed error named by the spec (no such error type exists anywhere in
the source; it is included only so that statements can distinguish it
from the generic lookup errors). -/
inductive PyError : Type where
  | keyError : String → PyError
  | indexError : PyError
  | valueError : PyError
  | missingDerivativeDataError : PyError
deriving DecidableEq, Repr

/-- `np.asarray(_, int)` on one entry: truncation of a rational toward
zero, as numpy's cast to a signed integer behaves. -/
def npIntCast (q : ℚ) : ℤ :=
  if q < 0 then -((-q).floor) else q.floor

/-- All derivative vectors of the given length (dimensionality) with the
given total order, enumerated in the canonical lexicographic order. -/
def compositions : ℕ → ℕ → List (List ℤ)
  | 0, 0 => [[]]
  | 0, _ + 1 => []
  | d + 1, ord =>
      (List.range (ord + 1)).flatMap
        (fun k => (compositions d (ord - k)).map (fun r => ((k : ℤ)) :: r))

/-- Modelled from the spec: `psijax.external_integrals.utils.get_deriv_vec_idx`
is imported by `oei.py` but its module is not among the provided source
files.  Per spec §4.1 it is the canonical bijective encoding of a
derivative vector of a fixed total order into a flat column index via a
stable stars-and-bars enumeration; we realise it as the position of the
vector in the canonical lexicographic enumeration of its order class. -/
def get_deriv_vec_idx (iv : List ℤ) : ℕ :=
  if 0 ≤ iv.sum then (compositions iv.length iv.sum.toNat).indexOf iv else 0

/-- `f[dataset_name]` on an open HDF5 file: a plain keyed lookup that
raises `KeyError` when the dataset name is absent. -/
def h5Lookup (f : H5File) (name : String) : Except PyError Tensor3 :=
  match f.find? (fun e => e.1 == name) with
  | none => Except.error (PyError.keyError name)
  | some e => Except.ok e.2

/-- `data_set[:, :, idx]`: the square matrix slice of a 3D dataset at
third-axis index `idx`; out of range is an index error. -/
def sliceLast (t : Tensor3) (idx : ℕ) : Except PyError (List (List ℚ)) :=
  if t.all (fun row => row.all (fun fib => idx < fib.length)) then
    Except.ok (t.map (fun row => row.map (fun fib => fib.getD idx 0)))
  else
    Except.error PyError.indexError

/-- The ambient libint session: the three flat arrays the native integral
library returns for the currently loaded geometry/basis. -/
structure LibintSession : Type where
  overlap : List ℚ
  kinetic : List ℚ
  potential : List ℚ

/-- `flat.reshape(d, d)` of a flat array whose length is the perfect
square `d * d`. -/
def reshape2 (l : List ℚ) (d : ℕ) : List (List ℚ) :=
  (List.range d).map (fun i => (List.range d).map (fun j => l.getD (i * d + j) 0))

/-- `overlap_impl`: fetch the flat overlap array from the libint session
and reshape it to a square matrix (a non-square length is a fatal
reshape error).  The geometry argument is never read. -/
def overlap_impl (lib : LibintSession) (geom : Geom) : Except PyError (List (List ℚ)) :=
  let S := lib.overlap
  let d := Nat.sqrt S.length
  if d * d = S.length then Except.ok (reshape2 S d) else Except.error PyError.valueError

/-- `kinetic_impl`, as `overlap_impl`. -/
def kinetic_impl (lib : LibintSession) (geom : Geom) : Except PyError (List (List ℚ)) :=
  let T := lib.kinetic
  let d := Nat.sqrt T.length
  if d * d = T.length then Except.ok (reshape2 T d) else Except.error PyError.valueError

/-- `potential_impl`, as `overlap_impl`. -/
def potential_impl (lib : LibintSession) (geom : Geom) : Except PyError (List (List ℚ)) :=
  let V := lib.potential
  let d := Nat.sqrt V.length
  if d * d = V.length then Except.ok (reshape2 V d) else Except.error PyError.valueError

/-- `overlap_deriv_impl`: cast the derivative vector to integers, compute
its total order, resolve the flat column index, and read the slice from
dataset `"overlap_deriv" + str(deriv_order)` of `oei_derivs.h5`.  The
geometry argument is never read. -/
def overlap_deriv_impl (store : H5File) (geom : Geom) (deriv_vec : DerivVec) :
    Except PyError (List (List ℚ)) :=
  let iv := deriv_vec.map npIntCast
  let deriv_order := iv.sum
  let idx := get_deriv_vec_idx iv
  let dataset_name := "overlap_deriv" ++ toString deriv_order
  match h5Lookup store dataset_name with
  | Except.error e => Except.error e
  | Except.ok ds => sliceLast ds idx

/-- `kinetic_deriv_impl`, as `overlap_deriv_impl` with dataset prefix
`"kinetic_deriv"`. -/
def kinetic_deriv_impl (store : H5File) (geom : Geom) (deriv_vec : DerivVec) :
    Except PyError (List (List ℚ)) :=
  let iv := deriv_vec.map npIntCast
  let deriv_order := iv.sum
  let idx := get_deriv_vec_idx iv
  let dataset_name := "kinetic_deriv" ++ toString deriv_order
  match h5Lookup store dataset_name with
  | Except.error e => Except.error e
  | Except.ok ds => sliceLast ds idx

/-- `potential_deriv_impl`, as `overlap_deriv_impl` with dataset prefix
`"potential_deriv"`. -/
def potential_deriv_impl (store : H5File) (geom : Geom) (deriv_vec : DerivVec) :
    Except PyError (List (List ℚ)) :=
  let iv := deriv_vec.map npIntCast
  let deriv_order := iv.sum
  let idx := get_deriv_vec_idx iv
  let dataset_name := "potential_deriv" ++ toString deriv_order
  match h5Lookup store dataset_name with
  | Except.error e => Except.error e
  | Except.ok ds => sliceLast ds idx

/-- `overlap(geom)`: binding the base primitive evaluates its impl rule. -/
def overlap (lib : LibintSession) (geom : Geom) : Except PyError (List (List ℚ)) :=
  overlap_impl lib geom

/-- `overlap_deriv(geom, deriv_vec)`: binding the derivative primitive
evaluates its impl rule. -/
def overlap_deriv (store : H5File) (geom : Geom) (deriv_vec : DerivVec) :
    Except PyError (List (List ℚ)) :=
  overlap_deriv_impl store geom deriv_vec

/-- `kinetic(geom)`. -/
def kinetic (lib : LibintSession) (geom : Geom) : Except PyError (List (List ℚ)) :=
  kinetic_impl lib geom

/-- `kinetic_deriv(geom, deriv_vec)`. -/
def kinetic_deriv (store : H5File) (geom : Geom) (deriv_vec : DerivVec) :
    Except PyError (List (List ℚ)) :=
  kinetic_deriv_impl store geom deriv_vec

/-- `potential(geom)`. -/
def potential (lib : LibintSession) (geom : Geom) : Except PyError (List (List ℚ)) :=
  potential_impl lib geom

/-- `potential_deriv(geom, deriv_vec)`. -/
def potential_deriv (store : H5File) (geom : Geom) (deriv_vec : DerivVec) :
    Except PyError (List (List ℚ)) :=
  potential_deriv_impl store geom deriv_vec

/-- Elementwise addition of two JAX arrays of the same shape
(`deriv_vec + tangents[0]`). -/
def vecAdd (u t : List ℚ) : List ℚ := List.zipWith (fun a b => a + b) u t

/-- `overlap_jvp(primals, tangents)` where `primals = (geom,)` and
`tangents = (t,)`: primal output is `overlap(geom)`, tangent output is
`overlap_deriv(geom, t)`. -/
def overlap_jvp (lib : LibintSession) (store : H5File) (primals : Geom) (tangents : Geom) :
    Except PyError (List (List ℚ)) × Except PyError (List (List ℚ)) :=
  (overlap lib primals, overlap_deriv store primals tangents)

/-- `overlap_deriv_jvp(primals, tangents)` with `primals = (geom,
deriv_vec)`: primal output `overlap_deriv(geom, deriv_vec)`, tangent
output `overlap_deriv(geom, deriv_vec + tangents[0])`. -/
def overlap_deriv_jvp (store : H5File) (primals : Geom × DerivVec)
    (tangents : Geom × DerivVec) :
    Except PyError (List (List ℚ)) × Except PyError (List (List ℚ)) :=
  (overlap_deriv store primals.1 primals.2,
   overlap_deriv store primals.1 (vecAdd primals.2 tangents.1))

/-- `kinetic_jvp`. -/
def kinetic_jvp (lib : LibintSession) (store : H5File) (primals : Geom) (tangents : Geom) :
    Except PyError (List (List ℚ)) × Except PyError (List (List ℚ)) :=
  (kinetic lib primals, kinetic_deriv store primals tangents)

/-- `kinetic_deriv_jvp`. -/
def kinetic_deriv_jvp (store : H5File) (primals : Geom × DerivVec)
    (tangents : Geom × DerivVec) :
    Except PyError (List (List ℚ)) × Except PyError (List (List ℚ)) :=
  (kinetic_deriv store primals.1 primals.2,
   kinetic_deriv store primals.1 (vecAdd primals.2 tangents.1))

/-- `potential_jvp`. -/
def potential_jvp (lib : LibintSession) (store : H5File) (primals : Geom) (tangents : Geom) :
    Except PyError (List (List ℚ)) × Except PyError (List (List ℚ)) :=
  (potential lib primals, potential_deriv store primals tangents)

/-- `potential_deriv_jvp`. -/
def potential_deriv_jvp (store : H5File) (primals : Geom × DerivVec)
    (tangents : Geom × DerivVec) :
    Except PyError (List (List ℚ)) × Except PyError (List (List ℚ)) :=
  (potential_deriv store primals.1 primals.2,
   potential_deriv store primals.1 (vecAdd primals.2 tangents.1))

/-- `overlap_deriv_batch(batched_args, batch_dims)`: evaluate every
derivative vector of the batch against the shared geometry in order,
appending each result (the `expand_dims`/`concatenate` pair builds the
new leading axis), and report batch axis 0. -/
def overlap_deriv_batch (store : H5File) (batched_args : Geom × List DerivVec)
    (batch_dims : ℕ × ℕ) : List (Except PyError (List (List ℚ))) × ℕ :=
  let geom_batch := batched_args.1
  let deriv_batch := batched_args.2
  (deriv_batch.foldl (fun results i => results ++ [overlap_deriv store geom_batch i]) [], 0)

/-- `kinetic_deriv_batch`. -/
def kinetic_deriv_batch (store : H5File) (batched_args : Geom × List DerivVec)
    (batch_dims : ℕ × ℕ) : List (Except PyError (List (List ℚ))) × ℕ :=
  let geom_batch := batched_args.1
  let deriv_batch := batched_args.2
  (deriv_batch.foldl (fun results i => results ++ [kinetic_deriv store geom_batch i]) [], 0)

/-- `potential_deriv_batch`. -/
def potential_deriv_batch (store : H5File) (batched_args : Geom × List DerivVec)
    (batch_dims : ℕ × ℕ) : List (Except PyError (List (List ℚ))) × ℕ :=
  let geom_batch := batched_args.1
  let deriv_batch := batched_args.2
  (deriv_batch.foldl (fun results i => results ++ [potential_deriv store geom_batch i]) [], 0)

/-- The total derivative order of a derivative vector after the integer
cast (`np.sum` of `np.asarray(deriv_vec, int)`). -/
def derivOrderOf (v : DerivVec) : ℤ := (v.map npIntCast).sum

/-! ## Part 2: the restricted Hartree-Fock SCF solver -/

open Matrix

/-- A square rational matrix of basis-set dimension `n`. -/
abbrev Mat (n : ℕ) := Matrix (Fin n) (Fin n) ℚ

/-- Matrices over `ℚ` with `Fin n` indices have decidable equality. -/
instance matDecidableEq (n : ℕ) : DecidableEq (Mat n) :=
  inferInstanceAs (DecidableEq (Fin n → Fin n → ℚ))

/-- The numerical-library collaborators the solver calls but this
repository does not implement: `jnp.linalg.eigh` (eigenvalues ascending,
eigenvectors as columns), the float `** 0.5` square root,
`jnp.linalg.cholesky` and `jnp.linalg.inv`. -/
structure NumOracles (n : ℕ) : Type where
  eigh : Mat n → (Fin n → ℚ) × Mat n
  sqrt : ℚ → ℚ
  cholesky : Mat n → Mat n
  inv : Mat n → Mat n

/-- `cholesky_orthogonalization(S)` from `energy_utils.py`:
`jnp.linalg.inv(jnp.linalg.cholesky(S)).T`. -/
def cholesky_orthogonalization {n : ℕ} (ora : NumOracles n) (S : Mat n) : Mat n :=
  (ora.inv (ora.cholesky S))ᵀ

/-- The solver's keyword options. -/
structure RHFOptions : Type where
  maxit : ℕ
  damping : Bool
  damp_factor : ℚ
  spectral_shift : Bool

/-- The quantities fixed for a whole SCF run: oracles, options, core
Hamiltonian `H = T + V`, overlap `S`, orthogonalizer `A`, spectral shift
matrix, two-electron tensor `G` and the doubly-occupied orbital count. -/
structure ScfParams (n : ℕ) : Type where
  ora : NumOracles n
  opts : RHFOptions
  H : Mat n
  S : Mat n
  A : Mat n
  shift : Mat n
  G : Fin n → Fin n → Fin n → Fin n → ℚ
  ndocc : ℤ

/-- The mutable state of the SCF while-loop. -/
structure SCFState (n : ℕ) : Type where
  E_scf : ℚ
  E_old : ℚ
  D : Mat n
  Dold : Mat n
  dRMS : ℚ
  iteration : ℕ
  C : Mat n
  eps : Fin n → ℚ
deriving DecidableEq

/-- `jk_build(G, D)`: the doubly-vmapped
`tensordot(x, y, axes=[(0,1),(0,1)])`, i.e. contraction of the last two
indices of `G` against `D`. -/
def jkBuild {n : ℕ} (G : Fin n → Fin n → Fin n → Fin n → ℚ) (D : Mat n) : Mat n :=
  Matrix.of (fun i j => ∑ k, ∑ l, G i j k l * D k l)

/-- `C[:, :ndocc]` with the discarded columns zeroed, so that
`Cocc @ Cocc.T` is the same matrix product as in the source. -/
def occColumns {n : ℕ} (ndocc : ℤ) (C : Mat n) : Mat n :=
  Matrix.of (fun i k => if ((k : ℕ) : ℤ) < ndocc then C i k else 0)

/-- `rhf_iter(F, D)`: trial energy, new density, back-transformed MO
coefficients and orbital energies.  `E_scf = einsum("pq,pq->", F + H, D)`
(the commented-out `+ Enuc` of the source is absent);
`Fp = A.T @ F @ A + shift`; `eps, C2 = eigh(Fp)`; `C = A @ C2`;
`D = Cocc @ Cocc.T` from the first `ndocc` columns of `C`. -/
def rhf_iter {n : ℕ} (ora : NumOracles n) (H A shift : Mat n) (ndocc : ℤ)
    (F D : Mat n) : ℚ × Mat n × Mat n × (Fin n → ℚ) :=
  let E_scf := ∑ p, ∑ q, (F + H) p q * D p q
  let Fp := Aᵀ * F * A + shift
  let ec := ora.eigh Fp
  let C := A * ec.2
  let Cocc := occColumns ndocc C
  (E_scf, Cocc * Coccᵀ, C, ec.1)

/-- The early-iteration density damping step: when enabled and
`iteration < 10`, both old and new density are scaled by the same
`damp_factor` and summed (`D = Dold * damp_factor + D * damp_factor`),
and `Dold` is set to that damped density (`Dold = D * 1`); otherwise
`D` and `Dold` pass through unchanged.  Returns `(D, Dold)`. -/
def dampStep {n : ℕ} (damping : Bool) (damp_factor : ℚ) (iteration : ℕ)
    (Dold D : Mat n) : Mat n × Mat n :=
  if damping = true ∧ iteration < 10 then
    (damp_factor • Dold + damp_factor • D, damp_factor • Dold + damp_factor • D)
  else (D, Dold)

/-- The damping step applied to the current loop state. -/
def dampedPair {n : ℕ} (P : ScfParams n) (s : SCFState n) : Mat n × Mat n :=
  dampStep P.opts.damping P.opts.damp_factor s.iteration s.Dold s.D

/-- Fock build: `F = H + JK` with `JK = 2 * jk_build(G, D) -
jk_build(G.transpose((0,2,1,3)), D)`. -/
def fockBuild {n : ℕ} (P : ScfParams n) (D : Mat n) : Mat n :=
  P.H + ((2 : ℚ) • jkBuild P.G D - jkBuild (fun i j k l => P.G i k j l) D)

/-- The DIIS-style error matrix actually computed by the source:
`diis_e = einsum(F,D,S) - einsum(S,D,F)` followed by
`A.dot(diis_e).dot(A)`, i.e. `A @ (F@D@S - S@D@F) @ A`. -/
def diisE {n : ℕ} (A F D S : Mat n) : Mat n := A * (F * D * S - S * D * F) * A

/-- `jnp.mean` over all entries of a square matrix. -/
def matMean {n : ℕ} (M : Mat n) : ℚ := (∑ i, ∑ j, M i j) / ((n : ℚ) * (n : ℚ))

/-- One pass of the SCF while-loop body: save `E_old`, damp the density,
build the Fock matrix, update `dRMS` from iteration 2 onward, and run
`rhf_iter`. -/
def scfBody {n : ℕ} (P : ScfParams n) (s : SCFState n) : SCFState n :=
  let E_old := s.E_scf
  let DD := dampedPair P s
  let D := DD.1
  let Dold := DD.2
  let F := fockBuild P D
  let dRMS :=
    if 1 < s.iteration then
      P.ora.sqrt (matMean (Matrix.of fun i j => (diisE P.A F D P.S) i j ^ 2))
    else s.dRMS
  let R := rhf_iter P.ora P.H P.A P.shift P.ndocc F D
  { E_scf := R.1, E_old := E_old, D := R.2.1, Dold := Dold,
    dRMS := dRMS, iteration := s.iteration + 1, C := R.2.2.1, eps := R.2.2.2 }

/-- The SCF while-loop: `while (|E_scf - E_old| > convergence) or
(dRMS > convergence)`, with a hard `break` once the incremented iteration
counter equals `maxit`.  `fuel` bounds the number of unfoldings so the
loop is a total function; `none` means the fuel ran out before the loop
exited. -/
def scfLoop {n : ℕ} (P : ScfParams n) (conv : ℚ) :
    ℕ → SCFState n → Option (SCFState n)
  | 0, _ => none
  | fuel + 1, s =>
    if |s.E_scf - s.E_old| > conv ∨ s.dRMS > conv then
      if (scfBody P s).iteration = P.opts.maxit then some (scfBody P s)
      else scfLoop P conv fuel (scfBody P s)
    else some s

/-- The convergence threshold: initialised to `1e-10` and overwritten
with `1e-8` when the spectral shift is enabled. -/
def rhfConvergence (spectral_shift : Bool) : ℚ :=
  if spectral_shift then 1 / 10 ^ 8 else 1 / 10 ^ 10

/-- `np.linspace(0, 1, nbf)` entry `i`. -/
def linspace01 (n : ℕ) (i : Fin n) : ℚ :=
  if n ≤ 1 then 0 else (i : ℚ) / ((n : ℚ) - 1)

/-- The spectral-shift matrix: `diag(linspace(0,1,nbf) * convergence)`
when enabled, zero otherwise. -/
def rhfShift (n : ℕ) (spectral_shift : Bool) (conv : ℚ) : Mat n :=
  if spectral_shift then Matrix.diagonal (fun i => linspace01 n i * conv) else 0

/-- `ndocc = nelectrons // 2` with
`nelectrons = int(sum(nuclear_charges)) - charge` (Python floor
division). -/
def rhfNdocc (nuclear_charges : List ℤ) (charge : ℤ) : ℤ :=
  (nuclear_charges.sum - charge).fdiv 2

/-- The run-constant parameters assembled by `restricted_hartree_fock`
before entering the loop; in particular the orthogonalizer is computed
once, by Cholesky-based canonical orthogonalization of `S`, and held
fixed. -/
def rhfParams {n : ℕ} (ora : NumOracles n) (opts : RHFOptions) (S T V : Mat n)
    (G : Fin n → Fin n → Fin n → Fin n → ℚ) (nuclear_charges : List ℤ)
    (charge : ℤ) : ScfParams n :=
  { ora := ora, opts := opts, H := T + V, S := S,
    A := cholesky_orthogonalization ora S,
    shift := rhfShift n opts.spectral_shift (rhfConvergence opts.spectral_shift),
    G := G, ndocc := rhfNdocc nuclear_charges charge }

/-- The initial loop state: `E_scf = 1`, `E_old = 0`, `dRMS = 1`,
`iteration = 0`, density from the optional seed (zero otherwise), and
placeholder MO data (the loop always runs at least once before `C`/`eps`
are read, since `|1 - 0|` exceeds both thresholds). -/
def rhfInit {n : ℕ} (dmguess : Option (Mat n)) : SCFState n :=
  { E_scf := 1, E_old := 0, D := dmguess.getD 0, Dold := dmguess.getD 0,
    dRMS := 1, iteration := 0, C := 0, eps := fun _ => 0 }

/-- The SCF loop as run by `restricted_hartree_fock`. -/
def rhfLoopRun {n : ℕ} (ora : NumOracles n) (opts : RHFOptions) (S T V : Mat n)
    (G : Fin n → Fin n → Fin n → Fin n → ℚ) (nuclear_charges : List ℤ)
    (charge : ℤ) (dmguess : Option (Mat n)) (fuel : ℕ) : Option (SCFState n) :=
  scfLoop (rhfParams ora opts S T V G nuclear_charges charge)
    (rhfConvergence opts.spectral_shift) fuel (rhfInit dmguess)

/-- The solver's result: the scalar energy, or in aux-data mode the
energy with MO coefficients, orbital energies and two-electron tensor. -/
def RHFOut (n : ℕ) : Type :=
  ℚ ⊕ (ℚ × Mat n × (Fin n → ℚ) × (Fin n → Fin n → Fin n → Fin n → ℚ))

/-- `restricted_hartree_fock`: run the loop and return `E_scf`, or
`(E_scf, C, eps, G)` in aux-data mode.  The final iteration count is
printed, never raised on. -/
def restricted_hartree_fock {n : ℕ} (ora : NumOracles n) (opts : RHFOptions)
    (S T V : Mat n) (G : Fin n → Fin n → Fin n → Fin n → ℚ)
    (nuclear_charges : List ℤ) (charge : ℤ) (return_aux_data : Bool)
    (dmguess : Option (Mat n)) (fuel : ℕ) : Option (RHFOut n) :=
  match rhfLoopRun ora opts S T V G nuclear_charges charge dmguess fuel with
  | none => none
  | some r =>
      some (if return_aux_data then Sum.inr (r.E_scf, r.C, r.eps, G)
            else Sum.inl r.E_scf)

/-- A trivial run configuration on a one-dimensional basis, used to
witness the loop theorems. -/
def c2P : ScfParams 1 :=
  { ora := { eigh := fun _ => (fun _ => 0, 1), sqrt := fun q => q,
             cholesky := fun M => M, inv := fun M => M },
    opts := { maxit := 5, damping := false, damp_factor := 1 / 2,
              spectral_shift := false },
    H := 0, S := 1, A := 1, shift := 0, G := fun _ _ _ _ => 0, ndocc := 1 }

/-- A loop state that already satisfies both convergence criteria. -/
def c2s : SCFState 1 :=
  { E_scf := 0, E_old := 0, D := 0, Dold := 0, dRMS := 0, iteration := 3,
    C := 0, eps := fun _ => 0 }

/-- Formalisation of the claim's wording for the DIIS-style error
vector: `Aᵗ · F · D · S − S · D · F · A`. -/
def diisEClaim {n : ℕ} (A F D S : Mat n) : Mat n := Aᵀ * F * D * S - S * D * F * A

/-- A concrete two-basis-function configuration separating the claimed
error-vector formula from the one the code computes. -/
def c5P : ScfParams 2 :=
  { ora := { eigh := fun _ => (fun _ => 0, 1), sqrt := fun q => q,
             cholesky := fun M => M, inv := fun M => M },
    opts := { maxit := 100, damping := false, damp_factor := 1 / 2,
              spectral_shift := false },
    H := !![1, 0; 0, 2], S := 1, A := !![1, 1; 0, 1], shift := 0,
    G := fun _ _ _ _ => 0, ndocc := 1 }

/-- A loop state at iteration 2 with an off-diagonal density. -/
def c5s : SCFState 2 :=
  { E_scf := 5, E_old := 0, D := !![0, 1; 1, 0], Dold := 0, dRMS := 1,
    iteration := 2, C := 0, eps := fun _ => 0 }

/-- Helper: a Python-style append loop over a list equals `List.map`. -/
theorem foldl_append_map {α β : Type} (f : α → β) (vs : List α) (acc : List β) :
    vs.foldl (fun results i => results ++ [f i]) acc = acc ++ vs.map f := by
  induction vs generalizing acc with
  | nil => simp
  | cons v vs ih => simp [ih]

/-- C1: for every geometry `g` and derivative vectors `u` and `t`, the
JVP rule of each derivative operator returns primal output
`eval_k_deriv(g, u)` and tangent output `eval_k_deriv(g, u + t)`, and
the JVP rule of each base operator returns primal `eval_k(g)` and
tangent `eval_k_deriv(g, t)` (k ∈ {overlap, kinetic, potential}). -/
theorem C1_jvp_composition (lib : LibintSession) (store : H5File) (g : Geom)
    (u : DerivVec) (t : Geom) (tdv : DerivVec) :
    overlap_deriv_jvp store (g, u) (t, tdv) =
        (overlap_deriv store g u, overlap_deriv store g (vecAdd u t))
    ∧ kinetic_deriv_jvp store (g, u) (t, tdv) =
        (kinetic_deriv store g u, kinetic_deriv store g (vecAdd u t))
    ∧ potential_deriv_jvp store (g, u) (t, tdv) =
        (potential_deriv store g u, potential_deriv store g (vecAdd u t))
    ∧ overlap_jvp lib store g t = (overlap lib g, overlap_deriv store g t)
    ∧ kinetic_jvp lib store g t = (kinetic lib g, kinetic_deriv store g t)
    ∧ potential_jvp lib store g t = (potential lib g, potential_deriv store g t) :=
  ⟨rfl, rfl, rfl, rfl, rfl, rfl⟩

/-- C6: the batching rule of each derivative operator returns exactly the
sequence of individual evaluations `eval_k_deriv(g, v_i)` stacked along a
new leading axis, in order, and reports batch axis 0. -/
theorem C6_batching_equivalence (store : H5File) (g : Geom) (vs : List DerivVec)
    (bd : ℕ × ℕ) :
    (overlap_deriv_batch store (g, vs) bd).1 = vs.map (overlap_deriv store g)
    ∧ (overlap_deriv_batch store (g, vs) bd).2 = 0
    ∧ (kinetic_deriv_batch store (g, vs) bd).1 = vs.map (kinetic_deriv store g)
    ∧ (kinetic_deriv_batch store (g, vs) bd).2 = 0
    ∧ (potential_deriv_batch store (g, vs) bd).1 = vs.map (potential_deriv store g)
    ∧ (potential_deriv_batch store (g, vs) bd).2 = 0 := by
  refine ⟨?_, rfl, ?_, rfl, ?_, rfl⟩ <;>
    simp [overlap_deriv_batch, kinetic_deriv_batch, potential_deriv_batch, foldl_append_map]

/-- C10: the derivative evaluators never read their geometry argument:
for any two geometries the results agree, being determined solely by the
derivative vector and the contents of the on-disk derivative store. -/
theorem C10_geometry_independence (store : H5File) (v : DerivVec) (g1 g2 : Geom) :
    overlap_deriv_impl store g1 v = overlap_deriv_impl store g2 v
    ∧ kinetic_deriv_impl store g1 v = kinetic_deriv_impl store g2 v
    ∧ potential_deriv_impl store g1 v = potential_deriv_impl store g2 v :=
  ⟨rfl, rfl, rfl⟩

/-- C3 counterexample: requesting a derivative whose `(kind, order)`
dataset is absent (here: order 1 from an empty store) fails with the
generic `KeyError` of the h5py dataset lookup, which is not the typed
`MissingDerivativeDataError` the claim requires. -/
theorem C3_missing_dataset_counterexample :
    overlap_deriv_impl [] [] [1] = Except.error (PyError.keyError "overlap_deriv1")
    ∧ Except.error (PyError.keyError "overlap_deriv1") ≠
      (Except.error PyError.missingDerivativeDataError :
        Except PyError (List (List ℚ))) := by
  constructor
  · rfl
  · simp

/-- C3 amended: for every derivative vector whose `(kind, order)` dataset
is absent from the derivative tensor store, `eval_k_deriv` fails with the
generic key lookup error `KeyError` naming the missing dataset (no typed
`MissingDerivativeDataError` exists in the code). -/
theorem C3_missing_dataset_amended (store : H5File) (g : Geom) (v : DerivVec)
    (h1 : store.find? (fun e => e.1 == "overlap_deriv" ++ toString (derivOrderOf v)) = none)
    (h2 : store.find? (fun e => e.1 == "kinetic_deriv" ++ toString (derivOrderOf v)) = none)
    (h3 : store.find? (fun e => e.1 == "potential_deriv" ++ toString (derivOrderOf v)) = none) :
    overlap_deriv_impl store g v =
        Except.error (PyError.keyError ("overlap_deriv" ++ toString (derivOrderOf v)))
    ∧ kinetic_deriv_impl store g v =
        Except.error (PyError.keyError ("kinetic_deriv" ++ toString (derivOrderOf v)))
    ∧ potential_deriv_impl store g v =
        Except.error (PyError.keyError ("potential_deriv" ++ toString (derivOrderOf v))) := by
  simp only [derivOrderOf] at h1 h2 h3 ⊢
  refine ⟨?_, ?_, ?_⟩ <;>
    simp [overlap_deriv_impl, kinetic_deriv_impl, potential_deriv_impl, h5Lookup,
      h1, h2, h3]

/-- C3 witness: the amended statement holds at the empty store and the
order-1 derivative vector `[1]`. -/
theorem C3_missing_dataset_witness :
    overlap_deriv_impl [] [] [1] =
      Except.error (PyError.keyError ("overlap_deriv" ++ toString (derivOrderOf [1]))) :=
  (C3_missing_dataset_amended [] [] [1] rfl rfl rfl).1

/-- Each loop pass increments the iteration counter by exactly one. -/
theorem scfBody_iteration {n : ℕ} (P : ScfParams n) (s : SCFState n) :
    (scfBody P s).iteration = s.iteration + 1 := rfl

/-- Helper: whenever the loop returns a state, that state satisfies the
exit condition: both convergence criteria hold at the loop head, or the
body just brought the iteration counter to `maxit`. -/
theorem scfLoop_exit {n : ℕ} (P : ScfParams n) (conv : ℚ) :
    ∀ (fuel : ℕ) (s r : SCFState n), scfLoop P conv fuel s = some r →
      (|r.E_scf - r.E_old| ≤ conv ∧ r.dRMS ≤ conv) ∨ r.iteration = P.opts.maxit := by
  intro fuel
  induction fuel with
  | zero => intro s r h; simp [scfLoop] at h
  | succ fuel ih =>
    intro s r h
    rw [scfLoop] at h
    by_cases hc : |s.E_scf - s.E_old| > conv ∨ s.dRMS > conv
    · rw [if_pos hc] at h
      by_cases hm : (scfBody P s).iteration = P.opts.maxit
      · rw [if_pos hm] at h
        cases h
        exact Or.inr hm
      · rw [if_neg hm] at h
        exact ih _ _ h
    · rw [if_neg hc] at h
      cases h
      push_neg at hc
      exact Or.inl ⟨hc.1, hc.2⟩

/-- C2: the SCF loop terminates exactly when both `|E_scf - E_old| ≤
convergence` and `dRMS ≤ convergence` hold simultaneously, or when the
iteration count reaches `maxit`: every returned state satisfies one of
the two exit conditions, and while neither holds the loop keeps
stepping.  The threshold is `1e-10` by default and `1e-8` whenever the
spectral shift is enabled. -/
theorem C2_scf_termination {n : ℕ} (P : ScfParams n) (conv : ℚ) (fuel : ℕ)
    (s r : SCFState n) (h : scfLoop P conv fuel s = some r) :
    ((|r.E_scf - r.E_old| ≤ conv ∧ r.dRMS ≤ conv) ∨ r.iteration = P.opts.maxit)
    ∧ (¬(|s.E_scf - s.E_old| ≤ conv ∧ s.dRMS ≤ conv) →
        (scfBody P s).iteration ≠ P.opts.maxit →
        scfLoop P conv (fuel + 1) s = scfLoop P conv fuel (scfBody P s))
    ∧ rhfConvergence true = 1 / 10 ^ 8
    ∧ rhfConvergence false = 1 / 10 ^ 10 := by
  refine ⟨scfLoop_exit P conv fuel s r h, ?_, rfl, rfl⟩
  intro hnc hm
  rw [scfLoop]
  rw [if_pos ?_, if_neg hm]
  rcases not_and_or.mp hnc with h1 | h1
  · exact Or.inl (not_le.mp h1)
  · exact Or.inr (not_le.mp h1)

/-- C2 witness: at threshold 1 the already-converged state `c2s` is
returned as-is, and it satisfies the exit condition. -/
theorem C2_scf_termination_witness :
    (|c2s.E_scf - c2s.E_old| ≤ 1 ∧ c2s.dRMS ≤ 1) ∨ c2s.iteration = c2P.opts.maxit :=
  (C2_scf_termination c2P 1 1 c2s c2s (by simp [scfLoop, c2s])).1

/-- Helper: with at least `maxit` fuel and the counter strictly below
`maxit`, the loop always returns a state (the `iteration == maxit` break
is a hard cutoff). -/
theorem scfLoop_total {n : ℕ} (P : ScfParams n) (conv : ℚ) :
    ∀ (fuel : ℕ) (s : SCFState n), s.iteration < P.opts.maxit →
      P.opts.maxit ≤ s.iteration + fuel →
      ∃ r, scfLoop P conv fuel s = some r := by
  intro fuel
  induction fuel with
  | zero => intro s h1 h2; omega
  | succ fuel ih =>
    intro s h1 h2
    rw [scfLoop]
    by_cases hc : |s.E_scf - s.E_old| > conv ∨ s.dRMS > conv
    · rw [if_pos hc]
      by_cases hm : (scfBody P s).iteration = P.opts.maxit
      · rw [if_pos hm]
        exact ⟨_, rfl⟩
      · rw [if_neg hm]
        rw [scfBody_iteration] at hm
        apply ih
        · rw [scfBody_iteration]
          omega
        · rw [scfBody_iteration]
          omega
    · rw [if_neg hc]
      exact ⟨s, rfl⟩

/-- C9: with enough fuel, if `maxit ≥ 1` then the solver always returns
a defined result rather than raising: the loop yields a final state `r`
satisfying the exit condition (converged, or counter equal to `maxit`),
the default mode returns `E_scf` of that state, and aux-data mode
returns `(E_scf, C, eps, G)` of that state. -/
theorem C9_maxit_returns {n : ℕ} (ora : NumOracles n) (opts : RHFOptions)
    (S T V : Mat n) (G : Fin n → Fin n → Fin n → Fin n → ℚ)
    (nuclear_charges : List ℤ) (charge : ℤ) (dmguess : Option (Mat n))
    (fuel : ℕ) (h1 : 1 ≤ opts.maxit) (h2 : opts.maxit ≤ fuel) :
    ∃ r : SCFState n,
      rhfLoopRun ora opts S T V G nuclear_charges charge dmguess fuel = some r
      ∧ restricted_hartree_fock ora opts S T V G nuclear_charges charge false
          dmguess fuel = some (Sum.inl r.E_scf)
      ∧ restricted_hartree_fock ora opts S T V G nuclear_charges charge true
          dmguess fuel = some (Sum.inr (r.E_scf, r.C, r.eps, G))
      ∧ ((|r.E_scf - r.E_old| ≤ rhfConvergence opts.spectral_shift
            ∧ r.dRMS ≤ rhfConvergence opts.spectral_shift)
          ∨ r.iteration = opts.maxit) := by
  obtain ⟨r, hr⟩ :=
    scfLoop_total (rhfParams ora opts S T V G nuclear_charges charge)
      (rhfConvergence opts.spectral_shift) fuel (rhfInit dmguess)
      (by simp only [rhfInit, rhfParams]; omega)
      (by simp only [rhfInit, rhfParams]; omega)
  refine ⟨r, hr, ?_, ?_, scfLoop_exit _ _ fuel _ r hr⟩
  · unfold restricted_hartree_fock
    rw [show rhfLoopRun ora opts S T V G nuclear_charges charge dmguess fuel
          = some r from hr]
    rfl
  · unfold restricted_hartree_fock
    rw [show rhfLoopRun ora opts S T V G nuclear_charges charge dmguess fuel
          = some r from hr]
    rfl

/-- C9 witness: a one-basis-function run with `maxit = 1` and fuel 1
returns a defined loop result. -/
theorem C9_maxit_returns_witness :
    (rhfLoopRun
      ({ eigh := fun _ => (fun _ => 0, 1), sqrt := fun q => q,
         cholesky := fun M => M, inv := fun M => M } : NumOracles 1)
      { maxit := 1, damping := false, damp_factor := 1 / 2, spectral_shift := false }
      1 0 0 (fun _ _ _ _ => 0) [2] 0 none 1).isSome = true := by
  obtain ⟨r, hr, -, -, -⟩ :=
    C9_maxit_returns
      ({ eigh := fun _ => (fun _ => 0, 1), sqrt := fun q => q,
         cholesky := fun M => M, inv := fun M => M } : NumOracles 1)
      { maxit := 1, damping := false, damp_factor := 1 / 2, spectral_shift := false }
      1 0 0 (fun _ _ _ _ => 0) [2] 0 none 1 (le_refl 1) (le_refl 1)
  rw [hr]
  rfl

/-- C4: `rhf_iter(F, D)` returns trial energy equal to the Frobenius
inner product of `F + H` with `D` (no nuclear repulsion term is added
inside the step), and a new density `Cocc @ Cocc.T` built from the first
`ndocc` columns of the back-transformed eigenvector matrix `C = A @ C2`;
when the eigensolver returns ascending eigenvalues those columns carry
the lowest orbital energies. -/
theorem C4_rhf_iter {n : ℕ} (ora : NumOracles n) (H A shift : Mat n) (ndocc : ℤ)
    (F D : Mat n)
    (hmono : Monotone (ora.eigh (Aᵀ * F * A + shift)).1) :
    (rhf_iter ora H A shift ndocc F D).1 = Matrix.trace ((F + H)ᵀ * D)
    ∧ (rhf_iter ora H A shift ndocc F D).2.1 =
        occColumns ndocc (A * (ora.eigh (Aᵀ * F * A + shift)).2) *
          (occColumns ndocc (A * (ora.eigh (Aᵀ * F * A + shift)).2))ᵀ
    ∧ (rhf_iter ora H A shift ndocc F D).2.2.1 =
        A * (ora.eigh (Aᵀ * F * A + shift)).2
    ∧ (rhf_iter ora H A shift ndocc F D).2.2.2 =
        (ora.eigh (Aᵀ * F * A + shift)).1
    ∧ (∀ j k : Fin n, ((j : ℕ) : ℤ) < ndocc → ndocc ≤ ((k : ℕ) : ℤ) →
        (rhf_iter ora H A shift ndocc F D).2.2.2 j ≤
          (rhf_iter ora H A shift ndocc F D).2.2.2 k) := by
  refine ⟨?_, rfl, rfl, rfl, ?_⟩
  · show (∑ p, ∑ q, (F + H) p q * D p q) = Matrix.trace ((F + H)ᵀ * D)
    rw [Matrix.trace]
    simp only [Matrix.diag, Matrix.mul_apply, Matrix.transpose_apply]
    exact Finset.sum_comm
  · intro j k hj hk
    have hjk : (j : ℕ) < (k : ℕ) := by exact_mod_cast lt_of_lt_of_le hj hk
    exact hmono (Fin.le_def.mpr hjk.le)

/-- C4 witness: the energy formula at a concrete one-dimensional input
with a constant (hence monotone) eigenvalue oracle. -/
theorem C4_rhf_iter_witness :
    (rhf_iter
      ({ eigh := fun _ => (fun _ => 0, 1), sqrt := fun q => q,
         cholesky := fun M => M, inv := fun M => M } : NumOracles 1)
      0 1 0 1 0 0).1 = Matrix.trace ((0 + 0 : Mat 1)ᵀ * 0) :=
  (C4_rhf_iter _ 0 1 0 1 0 0 monotone_const).1

/-- C7: `cholesky_orthogonalization(S)` = `inv(cholesky(S)).T` is a
two-sided inverse of the transpose of the lower-triangular Cholesky
factor `L` of `S`, satisfies `Aᵗ S A = 1`, and is exactly the
orthogonalizer `A` that `restricted_hartree_fock` fixes for the whole
SCF run. -/
theorem C7_cholesky_orthogonalization {n : ℕ} (ora : NumOracles n) (S L : Mat n)
    (hchol : ora.cholesky S = L)
    (hlt : ∀ i j : Fin n, i < j → L i j = 0)
    (hfact : L * Lᵀ = S)
    (hinv1 : ora.inv L * L = 1) (hinv2 : L * ora.inv L = 1) :
    cholesky_orthogonalization ora S * Lᵀ = 1
    ∧ Lᵀ * cholesky_orthogonalization ora S = 1
    ∧ (cholesky_orthogonalization ora S)ᵀ * S * cholesky_orthogonalization ora S = 1
    ∧ ∀ (opts : RHFOptions) (T V : Mat n) (G : Fin n → Fin n → Fin n → Fin n → ℚ)
        (nuclear_charges : List ℤ) (charge : ℤ),
        (rhfParams ora opts S T V G nuclear_charges charge).A =
          cholesky_orthogonalization ora S := by
  have hA : cholesky_orthogonalization ora S = (ora.inv L)ᵀ := by
    rw [cholesky_orthogonalization, hchol]
  refine ⟨?_, ?_, ?_, fun _ _ _ _ _ _ => rfl⟩
  · rw [hA, ← Matrix.transpose_mul, hinv2, Matrix.transpose_one]
  · rw [hA, ← Matrix.transpose_mul, hinv1, Matrix.transpose_one]
  · rw [hA, Matrix.transpose_transpose, ← hfact]
    calc ora.inv L * (L * Lᵀ) * (ora.inv L)ᵀ
        = (ora.inv L * L) * (Lᵀ * (ora.inv L)ᵀ) := by
          rw [← Matrix.mul_assoc, Matrix.mul_assoc (ora.inv L * L)]
      _ = 1 := by
          rw [hinv1, Matrix.one_mul, ← Matrix.transpose_mul, hinv1,
            Matrix.transpose_one]

/-- C7 witness: with `S = L = 1` in one dimension, the orthogonalizer
times `Lᵀ` is the identity. -/
theorem C7_cholesky_orthogonalization_witness :
    cholesky_orthogonalization
      ({ eigh := fun _ => (fun _ => 0, 1), sqrt := fun q => q,
         cholesky := fun M => M, inv := fun _ => 1 } : NumOracles 1) 1 * (1 : Mat 1)ᵀ = 1 :=
  (C7_cholesky_orthogonalization _ 1 1 rfl (by decide) (by simp) (by simp) (by simp)).1

/-- C8: with damping enabled, in each of the first 10 iterations
(counter < 10) and in no later iteration the density handed to the JK
build is replaced by `damp_factor * Dold + damp_factor * D` (both halves
scaled by the same factor), and the loop body consumes exactly the
damped pair: its stored `Dold` and the density fed through the Fock
build into `rhf_iter` come from `dampedPair`. -/
theorem C8_damping {n : ℕ} (damping : Bool) (damp_factor : ℚ) (iteration : ℕ)
    (Dold D : Mat n) :
    (damping = true → iteration < 10 →
      dampStep damping damp_factor iteration Dold D =
        (damp_factor • Dold + damp_factor • D, damp_factor • Dold + damp_factor • D))
    ∧ (10 ≤ iteration → dampStep damping damp_factor iteration Dold D = (D, Dold))
    ∧ (damping = false → dampStep damping damp_factor iteration Dold D = (D, Dold))
    ∧ (∀ (P : ScfParams n) (s : SCFState n),
        (scfBody P s).Dold = (dampedPair P s).2)
    ∧ (∀ (P : ScfParams n) (s : SCFState n),
        (scfBody P s).E_scf =
          (rhf_iter P.ora P.H P.A P.shift P.ndocc
            (fockBuild P (dampedPair P s).1) (dampedPair P s).1).1) := by
  refine ⟨?_, ?_, ?_, fun _ _ => rfl, fun _ _ => rfl⟩
  · intro hd hi
    rw [dampStep, if_pos ⟨hd, hi⟩]
  · intro hi
    rw [dampStep, if_neg]
    rintro ⟨-, hlt⟩
    omega
  · intro hd
    rw [dampStep, if_neg]
    rintro ⟨hd2, -⟩
    rw [hd] at hd2
    cases hd2

/-- C8 witness: with damping on, factor 1/2 and counter 3, the damping
formula is applied. -/
theorem C8_damping_witness :
    dampStep true (1 / 2) 3 (0 : Mat 1) 0 =
      ((1 / 2 : ℚ) • (0 : Mat 1) + (1 / 2 : ℚ) • (0 : Mat 1),
       (1 / 2 : ℚ) • (0 : Mat 1) + (1 / 2 : ℚ) • (0 : Mat 1)) :=
  (C8_damping true (1 / 2) 3 0 0).1 rfl (by decide)

/-- C5 amended: from iteration 2 onward (`iteration > 1`) and never
earlier, the body sets `dRMS` to the square root of the mean of the
squared entries of the error matrix `A @ (F @ D @ S - S @ D @ F) @ A`
(with `F` the Fock just built and `D` the post-damping density);
earlier iterations leave `dRMS` unchanged. -/
theorem C5_diis_amended {n : ℕ} (P : ScfParams n) (s : SCFState n) :
    (1 < s.iteration →
      (scfBody P s).dRMS =
        P.ora.sqrt (matMean (Matrix.of fun i j =>
          (diisE P.A (fockBuild P (dampedPair P s).1) (dampedPair P s).1 P.S) i j ^ 2)))
    ∧ (s.iteration ≤ 1 → (scfBody P s).dRMS = s.dRMS) := by
  constructor
  · intro h
    simp only [scfBody]
    rw [if_pos h]
  · intro h
    simp only [scfBody]
    rw [if_neg (not_lt.mpr h)]

/-- C5 counterexample: at `c5P`/`c5s` (identity `sqrt` oracle) the body
sets `dRMS = 3/4`, while the claim's formula `Aᵗ F D S − S D F A` gives
root-mean-square `1/2`: the tracked error vector is not the claimed
one. -/
theorem C5_diis_counterexample :
    (scfBody c5P c5s).dRMS = 3 / 4
    ∧ c5P.ora.sqrt (matMean (Matrix.of fun i j =>
        (diisEClaim c5P.A (fockBuild c5P (dampedPair c5P c5s).1)
          (dampedPair c5P c5s).1 c5P.S) i j ^ 2)) = 1 / 2
    ∧ (3 / 4 : ℚ) ≠ 1 / 2 := by
  have hs : ∀ q : ℚ, c5P.ora.sqrt q = q := fun q => rfl
  have hD : (dampedPair c5P c5s).1 = !![0, 1; 1, 0] := by
    simp [dampedPair, dampStep, c5P, c5s]
  have hF : fockBuild c5P !![0, 1; 1, 0] = !![1, 0; 0, 2] := by
    ext i j
    fin_cases i <;> fin_cases j <;>
      simp [fockBuild, jkBuild, c5P, Fin.sum_univ_two]
  have hE : diisE c5P.A !![1, 0; 0, 2] !![0, 1; 1, 0] c5P.S = !![1, 0; 1, 1] := by
    ext i j
    fin_cases i <;> fin_cases j <;>
      norm_num [diisE, c5P, Matrix.mul_apply, Fin.sum_univ_two]
  have hAt : (c5P.A)ᵀ = !![1, 0; 1, 1] := by
    ext i j
    fin_cases i <;> fin_cases j <;> simp [c5P]
  have hEc : diisEClaim c5P.A !![1, 0; 0, 2] !![0, 1; 1, 0] c5P.S =
      !![0, -1; 1, 0] := by
    simp only [diisEClaim, hAt]
    ext i j
    fin_cases i <;> fin_cases j <;>
      norm_num [c5P, Matrix.mul_apply, Fin.sum_univ_two]
  refine ⟨?_, ?_, by norm_num⟩
  · simp only [scfBody]
    rw [if_pos (by norm_num [c5s])]
    rw [hD, hF, hs, hE]
    norm_num [matMean, Fin.sum_univ_two]
  · rw [hD, hF, hs, hEc]
    norm_num [matMean, Fin.sum_univ_two]

/-- C5 witness: the amended statement instantiated at `c5P`/`c5s`. -/
theorem C5_diis_witness :
    (scfBody c5P c5s).dRMS =
      c5P.ora.sqrt (matMean (Matrix.of fun i j =>
        (diisE c5P.A (fockBuild c5P (dampedPair c5P c5s).1)
          (dampedPair c5P c5s).1 c5P.S) i j ^ 2)) :=
  (C5_diis_amended c5P c5s).1 (by decide)
